import Mathlib

/-!
Shallow embedding of the phishing-simulation campaign system.

Management side (`phishing-management-backend/src/phishing/phishing.service.ts`):
campaign records, the campaign store, and the service operations
`createAttempt`, `sendPhishingEmail`, `getAllAttempts`, `getAttemptById`,
`markAsClicked`.  The Mongo-backed store is modelled as a list of records;
`Document.save()` on an existing record writes back by `_id`
(an unconditional per-id replacement), and on a fresh record appends it.
Time (`new Date()`) is passed in as a `Nat` parameter.

Simulation side (`EmailService`, `EmailController`): placeholder substitution,
HTML-to-text derivation, and the structured send result returned over the TCP
channel.  The SMTP transport is modelled by a `TransportOutcome` parameter.

The TCP channel between the two (`TcpClientService`) is modelled by a
`ChannelOutcome` parameter: either a structured response arrived, or the call
failed at the channel level (timeout / connection error), which the client
catches and converts into a structured `success := false` response.
-/

/-- Campaign status. Modelled from the spec: the Mongoose schema file
(`phishing-attempt.schema.ts`) is not among the repository files provided;
the four states PENDING | SENT | CLICKED | FAILED are taken from the spec's
data model (and match the frontend's status strings and the service code). -/
inductive PhishingStatus
  | pending
  | sent
  | clicked
  | failed
  deriving DecidableEq, Repr

/-- Campaign record. Modelled from the spec: the schema file is not among the
repository files provided; fields follow the spec's data model and the fields
the service code reads and writes (`updatedAt` is managed by Mongoose and
never read by the code, so it is omitted). -/
structure PhishingAttempt where
  id : String
  recipientEmail : String
  emailContent : String
  subject : String
  createdBy : String
  status : PhishingStatus
  createdAt : Nat
  sentAt : Option Nat
  clickedAt : Option Nat
  deriving DecidableEq, Repr

/-- The campaign store: the persisted collection of campaign records. -/
abbrev Store := List PhishingAttempt

/-- Mongoose `findById`: the record whose `_id` matches, if any. -/
def findById (store : Store) (attemptId : String) : Option PhishingAttempt :=
  store.find? (fun a => a.id == attemptId)

/-- Mongoose `document.save()` on an already-persisted document: an
unconditional write-back keyed only on `_id` (no compare-and-swap on any
other field). -/
def saveDoc (store : Store) (doc : PhishingAttempt) : Store :=
  store.map (fun a => if a.id == doc.id then doc else a)

/-- The exceptions the service throws: `NotFoundException` and
`BadRequestException` (the latter is how both validation and invalid-state
errors surface). -/
inductive ServiceError
  | notFound (msg : String)
  | badRequest (msg : String)
  deriving DecidableEq, Repr

/-- JavaScript `s || fallback` on strings: the empty string is falsy. -/
def jsOr (s fallback : String) : String :=
  if s = "" then fallback else s

/-- JavaScript `x || fallback` where `x` may be absent (undefined) or an
empty (falsy) string. -/
def jsOrOpt : Option String → String → String
  | none, fallback => fallback
  | some s, fallback => jsOr s fallback

/-- Embedding of `CreatePhishingAttemptDto`: recipient plus optional custom content and
subject. -/
structure CreatePhishingAttemptDto where
  recipientEmail : String
  emailContent : Option String
  subject : Option String
  deriving DecidableEq, Repr

/-- Error detail carried inside a failed `SendEmailResponse`. -/
structure SendErrorInfo where
  code : String
  message : String
  deriving DecidableEq, Repr

/-- Embedding of `SendEmailResponse`: the structured result of the channel call
(`tcp-communication.dto.ts` / `email.dto.ts`). -/
structure SendEmailResponse where
  success : Bool
  message : String
  sentAt : Option Nat
  error : Option SendErrorInfo
  deriving DecidableEq, Repr

/-- Outcome of one TCP exchange as seen by the client: either the simulation
service's structured response arrived, or the call failed at the channel
level (timeout, connection refused) with an error message. -/
inductive ChannelOutcome
  | ok (response : SendEmailResponse)
  | err (msg : String)
  deriving DecidableEq, Repr

namespace TcpClientService

/-- Embedding of `TcpClientService.sendPhishingEmail`: forwards the structured response,
and catches any channel-level error, converting it into a structured
`success := false` response (it never throws to its caller). -/
def sendPhishingEmail : ChannelOutcome → SendEmailResponse
  | .ok r => r
  | .err m =>
      { success := false
        message := "Failed to communicate with email service"
        sentAt := none
        error := some { code := "TCP_COMMUNICATION_ERROR"
                        message := jsOr m "Unknown TCP error" } }

end TcpClientService

namespace PhishingService

/-- Default subject used when the DTO supplies none. -/
def defaultSubject : String := "Urgent: Account Verification Required"

/-- The click-link placeholder token `{{CLICK_LINK}}` (braces escaped). -/
def clickLinkPlaceholder : String := "\x7b\x7bCLICK_LINK\x7d\x7d"

/-- Default email content used when the DTO supplies none (the inline
template in `createAttempt`, which embeds the click-link placeholder). -/
def defaultContent : String :=
  "
      <div style=\"font-family: Arial, sans-serif; max-width: 600px; margin: 0 auto;\">
        <h2 style=\"color: #d32f2f;\">Account Verification Required</h2>
        <p>Dear User,</p>
        <p>We've detected unusual activity on your account. Please verify your identity by clicking the link below:</p>
        <div style=\"text-align: center; margin: 20px 0;\">
          <a href=\"" ++ clickLinkPlaceholder ++ "\" style=\"background-color: #1976d2; color: white; padding: 10px 20px; text-decoration: none; border-radius: 5px;\">Verify Account</a>
        </div>
        <p>If you don't verify within 24 hours, your account will be suspended.</p>
        <p>Best regards,<br>Security Team</p>
      </div>
    "

/-- Embedding of `PhishingService.createAttempt`: builds a new record (defaults applied via
JavaScript `||`), status PENDING, and persists it.  `newId` stands for the
`_id` Mongo assigns and `now` for the creation timestamp.  No validation of
the content happens here. -/
def createAttempt (dto : CreatePhishingAttemptDto) (userId : String)
    (newId : String) (now : Nat) (store : Store) : PhishingAttempt × Store :=
  let attempt : PhishingAttempt :=
    { id := newId
      recipientEmail := dto.recipientEmail
      emailContent := jsOrOpt dto.emailContent defaultContent
      subject := jsOrOpt dto.subject defaultSubject
      createdBy := userId
      status := .pending
      createdAt := now
      sentAt := none
      clickedAt := none }
  (attempt, store ++ [attempt])

/-- Embedding of `PhishingService.sendPhishingEmail`: loads by id (no owner scoping),
rejects non-PENDING, performs the channel call, then persists SENT (stamping
`sentAt` from the response, or `now`) or FAILED.  The source's `catch` block
re-saves the already-FAILED document and re-throws the same
`BadRequestException`, which leaves the store and the surfaced error exactly
as the `else` branch produced them, so the two collapse here. -/
def sendPhishingEmail (store : Store) (attemptId : String)
    (outcome : ChannelOutcome) (now : Nat) :
    Except ServiceError PhishingAttempt × Store :=
  match findById store attemptId with
  | none => (.error (.notFound "Phishing attempt not found"), store)
  | some attempt =>
      if attempt.status ≠ .pending then
        (.error (.badRequest "Phishing attempt has already been processed"), store)
      else
        let response := TcpClientService.sendPhishingEmail outcome
        if response.success then
          let updated := { attempt with
            status := .sent
            sentAt := some (response.sentAt.getD now) }
          (.ok updated, saveDoc store updated)
        else
          let updated := { attempt with status := .failed }
          (.error (.badRequest
              ("Failed to send phishing email: " ++ jsOr response.message "Unknown error")),
           saveDoc store updated)

/-- Mongo `.sort(createdAt: -1)` comparison: newest first, so `x` may come
before `y` when `y.createdAt ≤ x.createdAt`. -/
def byCreatedDesc (x y : PhishingAttempt) : Prop :=
  y.createdAt ≤ x.createdAt

instance : DecidableRel byCreatedDesc :=
  fun x y => Nat.decLe y.createdAt x.createdAt

instance : IsTotal PhishingAttempt byCreatedDesc :=
  ⟨fun x y => Nat.le_total y.createdAt x.createdAt⟩

instance : IsTrans PhishingAttempt byCreatedDesc :=
  ⟨fun _ _ _ h1 h2 => Nat.le_trans h2 h1⟩

/-- Embedding of `PhishingService.getAllAttempts`: the caller's own campaigns
(`find createdBy: userId`), newest first (`sort createdAt: -1`). -/
def getAllAttempts (store : Store) (userId : String) : List PhishingAttempt :=
  (store.filter (fun a => a.createdBy == userId)).insertionSort byCreatedDesc

/-- Embedding of `PhishingService.getAttemptById`: owner-scoped read
(`findOne _id: id, createdBy: userId`); NotFound when no record matches both. -/
def getAttemptById (store : Store) (attemptId userId : String) :
    Except ServiceError PhishingAttempt :=
  match store.find? (fun a => a.id == attemptId && a.createdBy == userId) with
  | none => .error (.notFound "Phishing attempt not found")
  | some a => .ok a

/-- Embedding of `PhishingService.markAsClicked`: loads by id (public, unscoped); if
already CLICKED returns the record unchanged, otherwise sets CLICKED and
stamps `clickedAt` — from any non-CLICKED status, with no check that the
campaign was ever sent. -/
def markAsClicked (store : Store) (attemptId : String) (now : Nat) :
    Except ServiceError PhishingAttempt × Store :=
  match findById store attemptId with
  | none => (.error (.notFound "Phishing attempt not found"), store)
  | some attempt =>
      if attempt.status = .clicked then
        (.ok attempt, store)
      else
        let updated := { attempt with status := .clicked, clickedAt := some now }
        (.ok updated, saveDoc store updated)

end PhishingService

/-- Result of `TemplateService.validateTemplate`. -/
structure TemplateValidation where
  valid : Bool
  errors : List String
  deriving DecidableEq, Repr

namespace TemplateService

/-- Embedding of `TemplateService.validateTemplate`: requires the click-link placeholder
and caps content at 50,000 characters.  Defined in the template module; no
call site in the repository invokes it. -/
def validateTemplate (content : String) : TemplateValidation :=
  let errors :=
    (if (PhishingService.clickLinkPlaceholder.toList <:+: content.toList) then []
     else ["Template must include " ++ PhishingService.clickLinkPlaceholder ++ " placeholder"])
    ++
    (if content.length > 50000 then ["Template content too large (max 50KB)"] else [])
  { valid := errors.isEmpty, errors := errors }

end TemplateService

/-- Embedding of `SendPhishingEmailDto` on the simulation side (`email.dto.ts`): the
channel request payload. -/
structure SendPhishingEmailDto where
  recipientEmail : String
  emailContent : String
  subject : String
  attemptId : String
  deriving DecidableEq, Repr

namespace EmailService

/-- The timestamp placeholder token `{{TIMESTAMP}}` (braces escaped). -/
def timestampPlaceholder : String := "\x7b\x7bTIMESTAMP\x7d\x7d"

/-- Embedding of `EmailService.generateClickTrackingUrl`: `baseUrl/attemptId`
(template literal `baseUrl` `/` `attemptId`). -/
def generateClickTrackingUrl (baseUrl attemptId : String) : String :=
  baseUrl ++ "/" ++ attemptId

/-- Worker for `replaceAllL`, structurally recursive on a fuel argument;
every step consumes at least one character, so fuel equal to the input
length (as supplied by `replaceAllL`) never runs out. -/
def replaceAllGo (pat repl : List Char) : Nat → List Char → List Char
  | _, [] => []
  | 0, l => l
  | fuel + 1, c :: cs =>
      if pat ≠ [] ∧ pat <+: (c :: cs) then
        repl ++ replaceAllGo pat repl fuel ((c :: cs).drop pat.length)
      else
        c :: replaceAllGo pat repl fuel cs

/-- JavaScript `String.prototype.replace` with a global literal regex and a
non-empty literal pattern: scan left to right, at a match emit the
replacement and resume after the matched text. -/
def replaceAllL (pat repl l : List Char) : List Char :=
  replaceAllGo pat repl l.length l

/-- String version of `replaceAllL`. -/
def replaceAllS (s pat repl : String) : String :=
  (replaceAllL pat.toList repl.toList s.toList).asString

/-- Embedding of `EmailService.processEmailContent`: substitutes every occurrence of the
click-link placeholder with the tracking URL, then every occurrence of the
timestamp placeholder with the current locale time string (`nowStr`). -/
def processEmailContent (content clickUrl nowStr : String) : String :=
  replaceAllS (replaceAllS content PhishingService.clickLinkPlaceholder clickUrl)
    timestampPlaceholder nowStr

/-- Scanner for the regex `<[^>]*>`: from a position right after `<`, the
match can only end at the first following `>`; returns the remainder after
it, or `none` when no `>` follows (then the `<` does not start a match). -/
def splitAfterGt : List Char → Option (List Char)
  | [] => none
  | c :: cs => if c = '>' then some cs else splitAfterGt cs

/-- Worker for `stripTags`, structurally recursive on a fuel argument;
every step consumes at least one character, so fuel equal to the input
length never runs out. -/
def stripTagsGo : Nat → List Char → List Char
  | _, [] => []
  | 0, l => l
  | fuel + 1, c :: cs =>
      if c = '<' then
        match splitAfterGt cs with
        | some rest => stripTagsGo fuel rest
        | none => c :: stripTagsGo fuel cs
      else c :: stripTagsGo fuel cs

/-- Replacement of every match of `<[^>]*>` by the empty string: each `<`
with a later `>` swallows everything up to that first `>`; a `<` with no
following `>` stays. -/
def stripTags (l : List Char) : List Char :=
  stripTagsGo l.length l

/-- JavaScript regex `\s`: space, tab, line terminators, vertical tab, form
feed, NBSP, BOM and the Unicode space separators. -/
def isJsSpace (c : Char) : Bool :=
  c == ' ' || c == '\t' || c == '\n' || c == '\r' ||
  c.val == 0x0B || c.val == 0x0C || c.val == 0xA0 || c.val == 0x1680 ||
  (0x2000 ≤ c.val && c.val ≤ 0x200A) || c.val == 0x2028 || c.val == 0x2029 ||
  c.val == 0x202F || c.val == 0x205F || c.val == 0x3000 || c.val == 0xFEFF

/-- Worker for `collapseWs`, structurally recursive on a fuel argument;
every step consumes at least one character, so fuel equal to the input
length never runs out. -/
def collapseWsGo : Nat → List Char → List Char
  | _, [] => []
  | 0, l => l
  | fuel + 1, c :: cs =>
      if isJsSpace c then ' ' :: collapseWsGo fuel (cs.dropWhile isJsSpace)
      else c :: collapseWsGo fuel cs

/-- Replacement of every maximal run of whitespace (`\s+`) by a single
space. -/
def collapseWs (l : List Char) : List Char :=
  collapseWsGo l.length l

/-- JavaScript `String.prototype.trim`: strip leading and trailing
whitespace. -/
def trimWs (l : List Char) : List Char :=
  ((l.dropWhile isJsSpace).reverse.dropWhile isJsSpace).reverse

/-- Embedding of `EmailService.htmlToText`: strip HTML tags, collapse whitespace runs to
single spaces, trim. -/
def htmlToText (html : String) : String :=
  (trimWs (collapseWs (stripTags html.toList))).asString

/-- Environment configuration the email service reads (`EMAIL_FROM`,
`CLICK_TRACKING_BASE_URL`). -/
structure EmailConfig where
  emailFrom : String
  clickTrackingBaseUrl : String
  deriving DecidableEq, Repr

/-- The argument `EmailService.sendPhishingEmail` hands to
`transporter.sendMail` (source field names `from` and `to`; `from` is a Lean
keyword, hence `fromAddr`/`toAddr`). -/
structure MailMessage where
  fromAddr : String
  toAddr : String
  subject : String
  html : String
  text : String
  deriving DecidableEq, Repr

/-- Outcome of the `transporter.sendMail` call: delivered with a message id,
or rejected with an error that may carry a `code` and carries a `message`. -/
inductive TransportOutcome
  | delivered (messageId : String)
  | transportError (code : Option String) (message : String)
  deriving DecidableEq, Repr

/-- The mail message `EmailService.sendPhishingEmail` builds before calling
the transport: tracking URL generated from the attempt id, placeholders
substituted into the HTML, plain-text fallback derived from that HTML. -/
def buildMailOptions (cfg : EmailConfig) (dto : SendPhishingEmailDto)
    (nowStr : String) : MailMessage :=
  let clickTrackingUrl := generateClickTrackingUrl cfg.clickTrackingBaseUrl dto.attemptId
  let processedContent := processEmailContent dto.emailContent clickTrackingUrl nowStr
  { fromAddr := cfg.emailFrom
    toAddr := dto.recipientEmail
    subject := dto.subject
    html := processedContent
    text := htmlToText processedContent }

/-- Embedding of `EmailService.sendPhishingEmail`: builds the mail message, attempts
delivery, and returns a structured result in both cases (its own `try/catch`
converts a transport error into `success := false` with
`code := error.code || 'SMTP_ERROR'`).  Returns the message handed to the
transport alongside the structured response. -/
def sendPhishingEmail (cfg : EmailConfig) (dto : SendPhishingEmailDto)
    (nowStr : String) (outcome : TransportOutcome) (now : Nat) :
    MailMessage × SendEmailResponse :=
  let mailOptions := buildMailOptions cfg dto nowStr
  match outcome with
  | .delivered _ =>
      (mailOptions,
       { success := true
         message := "Phishing email sent successfully"
         sentAt := some now
         error := none })
  | .transportError code msg =>
      (mailOptions,
       { success := false
         message := "Failed to send phishing email"
         sentAt := none
         error := some { code := jsOrOpt code "SMTP_ERROR", message := msg } })

end EmailService

/-- How one `send_phishing_email` request reaches the dispatcher's handler:
the normal path delegates to `EmailService` with some transport outcome, or
an unexpected exception (with a message) escapes the service call itself. -/
inductive HandlerOutcome
  | normal (outcome : EmailService.TransportOutcome)
  | internalError (msg : String)
  deriving DecidableEq, Repr

namespace EmailController

/-- Embedding of `EmailController.handleSendPhishingEmail`: delegates to the email
service and returns its structured result; any unexpected error is caught
and returned as a structured `success := false` result with code
`INTERNAL_ERROR` — nothing is thrown past the channel boundary. -/
def handleSendPhishingEmail (cfg : EmailService.EmailConfig)
    (dto : SendPhishingEmailDto) (nowStr : String) (h : HandlerOutcome)
    (now : Nat) : SendEmailResponse :=
  match h with
  | .normal outcome => (EmailService.sendPhishingEmail cfg dto nowStr outcome now).2
  | .internalError msg =>
      { success := false
        message := "Unexpected error occurred while processing email request"
        sentAt := none
        error := some { code := "INTERNAL_ERROR", message := jsOr msg "Unknown error" } }

end EmailController

/-- State of one in-flight `sendPhishingEmail` call, at the granularity of
its store accesses: it performs one atomic read (`findById`) and — when the
snapshot it read was PENDING — one atomic unconditional write
(`document.save()`, keyed only on `_id`); the status check and the channel
call touch only the snapshot, not the store. -/
inductive ProcState
  | start
  | loaded (attempt : PhishingAttempt)
  | noRecord
  | invalidState
  | doneOk (result : PhishingAttempt)
  | doneFailed (result : PhishingAttempt)
  deriving DecidableEq, Repr

/-- One `sendPhishingEmail` invocation: the campaign id it targets, the
channel outcome its dispatch will produce, and its clock. -/
structure SendCall where
  attemptId : String
  outcome : ChannelOutcome
  now : Nat
  deriving DecidableEq, Repr

/-- One atomic step of a `sendPhishingEmail` call against the shared store.
From `start` it performs the read; from `loaded` it checks the snapshot's
status and, if that snapshot was PENDING, performs the unconditional
write-back of the updated document.  Terminal states do not move. -/
def sendStep (call : SendCall) : ProcState → Store → ProcState × Store
  | .start, store =>
      match findById store call.attemptId with
      | none => (.noRecord, store)
      | some a => (.loaded a, store)
  | .loaded a, store =>
      if a.status ≠ .pending then (.invalidState, store)
      else
        let response := TcpClientService.sendPhishingEmail call.outcome
        if response.success then
          let updated := { a with
            status := .sent
            sentAt := some (response.sentAt.getD call.now) }
          (.doneOk updated, saveDoc store updated)
        else
          let updated := { a with status := .failed }
          (.doneFailed updated, saveDoc store updated)
  | .noRecord, store => (.noRecord, store)
  | .invalidState, store => (.invalidState, store)
  | .doneOk r, store => (.doneOk r, store)
  | .doneFailed r, store => (.doneFailed r, store)

/-- Shared state of two concurrent `sendPhishingEmail` calls. -/
structure TwoSendState where
  store : Store
  p1 : ProcState
  p2 : ProcState
  deriving DecidableEq, Repr

/-- Interleaved execution: `true` schedules a step of call 1, `false` a step
of call 2. -/
def twoSendStep (c1 c2 : SendCall) (which : Bool) (st : TwoSendState) :
    TwoSendState :=
  if which then
    let r := sendStep c1 st.p1 st.store
    { store := r.2, p1 := r.1, p2 := st.p2 }
  else
    let r := sendStep c2 st.p2 st.store
    { store := r.2, p1 := st.p1, p2 := r.1 }

/-- Run a schedule of interleaved steps. -/
def runSchedule (c1 c2 : SendCall) : List Bool → TwoSendState → TwoSendState
  | [], st => st
  | w :: ws, st => runSchedule c1 c2 ws (twoSendStep c1 c2 w st)

/-- The transition relation the code actually enforces on a stored record
during one operation: unchanged, PENDING to SENT or FAILED (send), or any
non-CLICKED status to CLICKED (click tracking). -/
def statusStep (s t : PhishingStatus) : Prop :=
  s = t ∨ (s = .pending ∧ (t = .sent ∨ t = .failed)) ∨ (s ≠ .clicked ∧ t = .clicked)

theorem findById_id : ∀ (store : Store) (attemptId : String) (a : PhishingAttempt),
    findById store attemptId = some a → a.id = attemptId := by
  intro store attemptId a h
  have hp := List.find?_some h
  simpa using hp

theorem findById_mem : ∀ (store : Store) (attemptId : String) (a : PhishingAttempt),
    findById store attemptId = some a → a ∈ store := by
  intro store attemptId a h
  exact List.mem_of_find?_eq_some h

/-- After a `save` of a record carrying the found record's id, a re-load by
the same id yields exactly the saved record. -/
theorem findById_saveDoc : ∀ (store : Store) (attemptId : String) (a u : PhishingAttempt),
    findById store attemptId = some a → u.id = a.id →
    findById (saveDoc store u) attemptId = some u := by
  intro store
  induction store with
  | nil => intro attemptId a u hfind _; simp [findById] at hfind
  | cons x xs ih =>
      intro attemptId a u hfind hid
      by_cases hx : (x.id == attemptId) = true
      · have hax : x = a := by
          rw [findById, List.find?_cons_of_pos xs hx] at hfind
          exact Option.some.inj hfind
        have hxu : (x.id == u.id) = true := by
          rw [hid, ← hax]
          exact beq_self_eq_true x.id
        have hu : (u.id == attemptId) = true := by
          rw [hid, ← hax]
          exact hx
        simp only [saveDoc, List.map_cons, if_pos hxu]
        simp only [findById, List.find?, hu]
      · rw [findById, List.find?_cons_of_neg xs hx] at hfind
        have ha : a.id = attemptId := findById_id xs attemptId a hfind
        have hxu : ¬ (x.id == u.id) = true := by
          rw [hid, ha]
          exact hx
        have hx' : (x.id == attemptId) = false := by
          simpa using hx
        simp only [saveDoc, List.map_cons, if_neg hxu]
        simp only [findById, List.find?, hx']
        exact ih attemptId a u hfind hid

/-- Every record of a saved store is the saved record or an untouched one. -/
theorem mem_saveDoc : ∀ (store : Store) (u r : PhishingAttempt),
    r ∈ saveDoc store u → r = u ∨ r ∈ store := by
  intro store u r h
  simp only [saveDoc, List.mem_map] at h
  obtain ⟨x, hx, hfx⟩ := h
  by_cases hid : (x.id == u.id) = true
  · rw [if_pos hid] at hfx
    exact Or.inl hfx.symm
  · rw [if_neg hid] at hfx
    exact Or.inr (hfx ▸ hx)

/-- In a store with pairwise-distinct ids (Mongo's `_id` uniqueness), two
members with the same id are the same record. -/
theorem unique_by_id : ∀ (store : Store),
    store.Pairwise (fun p q => p.id ≠ q.id) →
    ∀ {x a : PhishingAttempt}, x ∈ store → a ∈ store → x.id = a.id → x = a := by
  intro store
  induction store with
  | nil => intro _ x a hx _ _; simp at hx
  | cons y ys ih =>
      intro hnodup x a hx ha h
      rw [List.pairwise_cons] at hnodup
      rcases List.mem_cons.mp hx with rfl | hx'
      · rcases List.mem_cons.mp ha with rfl | ha'
        · rfl
        · exact absurd h (hnodup.1 a ha')
      · rcases List.mem_cons.mp ha with rfl | ha'
        · exact absurd h.symm (hnodup.1 x hx')
        · exact ih hnodup.2 hx' ha' h

/-- Sample campaign: PENDING, owned by `alice`. -/
def samplePending : PhishingAttempt :=
  { id := "a1"
    recipientEmail := "target@example.com"
    emailContent := "<p>hi</p>"
    subject := "subject"
    createdBy := "alice"
    status := .pending
    createdAt := 3
    sentAt := none
    clickedAt := none }

/-- Sample structured success response from the simulation service. -/
def sampleOkResponse : SendEmailResponse :=
  { success := true
    message := "Phishing email sent successfully"
    sentAt := some 4
    error := none }

/-- Fidelity of the step model: running one call's two steps alone from
`start` reproduces the sequential `PhishingService.sendPhishingEmail` — the
final store coincides, and the process state encodes the same result. -/
theorem sendStep_seq (call : SendCall) (store : Store) :
    (let r1 := sendStep call .start store
     let r2 := sendStep call r1.1 r1.2
     let seq := PhishingService.sendPhishingEmail store call.attemptId call.outcome call.now
     r2.2 = seq.2 ∧
       ((∃ a, r2.1 = .doneOk a ∧ seq.1 = .ok a) ∨
        (r2.1 = .noRecord ∧ seq.1 = .error (.notFound "Phishing attempt not found")) ∨
        (r2.1 = .invalidState ∧
          seq.1 = .error (.badRequest "Phishing attempt has already been processed")) ∨
        (∃ a msg, r2.1 = .doneFailed a ∧ seq.1 = .error (.badRequest msg)))) := by
  simp only [sendStep, PhishingService.sendPhishingEmail]
  match h : findById store call.attemptId with
  | none => simp [sendStep]
  | some a =>
      simp only [sendStep]
      by_cases hp : a.status = .pending
      · simp only [hp]
        by_cases hs : (TcpClientService.sendPhishingEmail call.outcome).success = true
        · simp [hs]
        · simp only [Bool.not_eq_true] at hs
          simp [hs]
      · simp [hp]

/-- Effect of one `sendPhishingEmail` call on the stored records: every
record of the resulting store descends from a record of the old store with
the same id along `statusStep`. -/
theorem sendPhishingEmail_statusStep (store : Store) (attemptId : String)
    (outcome : ChannelOutcome) (now : Nat) (r' : PhishingAttempt)
    (hmem : r' ∈ (PhishingService.sendPhishingEmail store attemptId outcome now).2) :
    ∃ r ∈ store, r.id = r'.id ∧ statusStep r.status r'.status := by
  cases hf : findById store attemptId with
  | none =>
      have hstore : (PhishingService.sendPhishingEmail store attemptId outcome now).2 = store := by
        simp [PhishingService.sendPhishingEmail, hf]
      rw [hstore] at hmem
      exact ⟨r', hmem, rfl, Or.inl rfl⟩
  | some attempt =>
      by_cases hp : attempt.status = .pending
      · by_cases hs : (TcpClientService.sendPhishingEmail outcome).success = true
        · have hstore : (PhishingService.sendPhishingEmail store attemptId outcome now).2 =
              saveDoc store { attempt with
                status := .sent
                sentAt := some ((TcpClientService.sendPhishingEmail outcome).sentAt.getD now) } := by
            simp [PhishingService.sendPhishingEmail, hf, hp, hs]
          rw [hstore] at hmem
          rcases mem_saveDoc _ _ _ hmem with rfl | hm
          · exact ⟨attempt, findById_mem _ _ _ hf, rfl, Or.inr (Or.inl ⟨hp, Or.inl rfl⟩)⟩
          · exact ⟨r', hm, rfl, Or.inl rfl⟩
        · have hs' : (TcpClientService.sendPhishingEmail outcome).success = false :=
            Bool.not_eq_true _ ▸ (by simpa using hs)
          have hstore : (PhishingService.sendPhishingEmail store attemptId outcome now).2 =
              saveDoc store { attempt with status := .failed } := by
            simp [PhishingService.sendPhishingEmail, hf, hp, hs']
          rw [hstore] at hmem
          rcases mem_saveDoc _ _ _ hmem with rfl | hm
          · exact ⟨attempt, findById_mem _ _ _ hf, rfl, Or.inr (Or.inl ⟨hp, Or.inr rfl⟩)⟩
          · exact ⟨r', hm, rfl, Or.inl rfl⟩
      · have hstore : (PhishingService.sendPhishingEmail store attemptId outcome now).2 = store := by
          simp [PhishingService.sendPhishingEmail, hf, hp]
        rw [hstore] at hmem
        exact ⟨r', hmem, rfl, Or.inl rfl⟩

/-- Effect of one `markAsClicked` call on the stored records, in the same
sense. -/
theorem markAsClicked_statusStep (store : Store) (attemptId : String) (now : Nat)
    (r' : PhishingAttempt)
    (hmem : r' ∈ (PhishingService.markAsClicked store attemptId now).2) :
    ∃ r ∈ store, r.id = r'.id ∧ statusStep r.status r'.status := by
  cases hf : findById store attemptId with
  | none =>
      have hstore : (PhishingService.markAsClicked store attemptId now).2 = store := by
        simp [PhishingService.markAsClicked, hf]
      rw [hstore] at hmem
      exact ⟨r', hmem, rfl, Or.inl rfl⟩
  | some attempt =>
      by_cases hc : attempt.status = .clicked
      · have hstore : (PhishingService.markAsClicked store attemptId now).2 = store := by
          simp [PhishingService.markAsClicked, hf, hc]
        rw [hstore] at hmem
        exact ⟨r', hmem, rfl, Or.inl rfl⟩
      · have hstore : (PhishingService.markAsClicked store attemptId now).2 =
            saveDoc store { attempt with status := .clicked, clickedAt := some now } := by
          simp [PhishingService.markAsClicked, hf, hc]
        rw [hstore] at hmem
        rcases mem_saveDoc _ _ _ hmem with rfl | hm
        · exact ⟨attempt, findById_mem _ _ _ hf, rfl, Or.inr (Or.inr ⟨hc, rfl⟩)⟩
        · exact ⟨r', hm, rfl, Or.inl rfl⟩

/-- C1: counterexample.  A campaign whose status is PENDING (never sent)
reaches CLICKED through a single `recordClick`: `markAsClicked` checks only
that the status is not already CLICKED, not that it is SENT, so the
transition PENDING→CLICKED — which the claim says is unreachable — happens
on this concrete input. -/
theorem c1_pending_reaches_clicked :
    PhishingService.markAsClicked [samplePending] "a1" 7 =
      (.ok { samplePending with status := .clicked, clickedAt := some 7 },
       [{ samplePending with status := .clicked, clickedAt := some 7 }]) ∧
    samplePending.status = .pending := by
  constructor
  · rfl
  · rfl

/-- C1 (amended): the status field only ever changes along PENDING→SENT and
PENDING→FAILED (during `sendCampaign`) and s→CLICKED for any s ≠ CLICKED
(during `recordClick` — so CLICKED is also reachable from PENDING and
FAILED, not only from SENT); `createCampaign` only appends records with
status PENDING, and no status ever returns to PENDING. -/
theorem c1_status_transitions :
    (∀ dto userId newId now store r',
        r' ∈ (PhishingService.createAttempt dto userId newId now store).2 →
        r' ∈ store ∨ r'.status = .pending) ∧
    (∀ store attemptId outcome now r',
        r' ∈ (PhishingService.sendPhishingEmail store attemptId outcome now).2 →
        ∃ r ∈ store, r.id = r'.id ∧ statusStep r.status r'.status) ∧
    (∀ store attemptId now r',
        r' ∈ (PhishingService.markAsClicked store attemptId now).2 →
        ∃ r ∈ store, r.id = r'.id ∧ statusStep r.status r'.status) := by
  refine ⟨?_, ?_, ?_⟩
  · intro dto userId newId now store r' hmem
    simp only [PhishingService.createAttempt, List.mem_append, List.mem_singleton] at hmem
    rcases hmem with hm | rfl
    · exact Or.inl hm
    · exact Or.inr rfl
  · intro store attemptId outcome now r' hmem
    exact sendPhishingEmail_statusStep store attemptId outcome now r' hmem
  · intro store attemptId now r' hmem
    exact markAsClicked_statusStep store attemptId now r' hmem

/-- C2: counterexample.  `samplePending` is owned by `alice` and PENDING; the
owner-scoped read correctly hides it from `bob`, but `sendPhishingEmail`
takes no owner at all — invoked for the same campaign (as `bob` or anyone
authenticated would) it does not fail with NotFound, it succeeds and
transitions the campaign to SENT. -/
theorem c2_send_not_owner_scoped_counterexample :
    PhishingService.getAttemptById [samplePending] "a1" "bob" =
      .error (.notFound "Phishing attempt not found") ∧
    (PhishingService.sendPhishingEmail [samplePending] "a1" (.ok sampleOkResponse) 9).1 =
      .ok { samplePending with status := .sent, sentAt := some 4 } ∧
    samplePending.createdBy = "alice" ∧ ("bob" : String) ≠ "alice" := by
  refine ⟨rfl, rfl, rfl, ?_⟩
  decide

/-- C2 (amended): the owner-scoped read (`getAttemptById`, the find-by-id
path) fails with NotFound for every user other than the owner; but
`sendPhishingEmail` performs no owner scoping at all — it loads the campaign
by id alone, and on a PENDING campaign with a successful dispatch it
succeeds no matter who invokes it, so the send path (like the click path) is
exempt from owner scoping. -/
theorem c2_owner_scoping (store : Store) (attemptId u : String)
    (a : PhishingAttempt) (outcome : ChannelOutcome) (now : Nat)
    (hnodup : store.Pairwise (fun p q => p.id ≠ q.id))
    (hfind : findById store attemptId = some a)
    (howner : a.createdBy ≠ u)
    (hpend : a.status = .pending)
    (hsucc : (TcpClientService.sendPhishingEmail outcome).success = true) :
    PhishingService.getAttemptById store attemptId u =
      .error (.notFound "Phishing attempt not found") ∧
    (PhishingService.sendPhishingEmail store attemptId outcome now).1 =
      .ok { a with
        status := .sent
        sentAt := some ((TcpClientService.sendPhishingEmail outcome).sentAt.getD now) } := by
  constructor
  · have hnone : store.find? (fun x => x.id == attemptId && x.createdBy == u) = none := by
      rw [List.find?_eq_none]
      intro x hx hpx
      rw [Bool.and_eq_true, beq_iff_eq, beq_iff_eq] at hpx
      have hxa : x = a :=
        unique_by_id store hnodup hx (findById_mem _ _ _ hfind)
          (hpx.1.trans (findById_id _ _ _ hfind).symm)
      exact howner (hxa ▸ hpx.2)
    simp [PhishingService.getAttemptById, hnone]
  · simp [PhishingService.sendPhishingEmail, hfind, hpend, hsucc]

/-- C2 witness: the amended theorem applied to the one-campaign store owned
by `alice`, invoked for `bob`. -/
theorem c2_owner_scoping_witness :
    PhishingService.getAttemptById [samplePending] "a1" "bob" =
      .error (.notFound "Phishing attempt not found") ∧
    (PhishingService.sendPhishingEmail [samplePending] "a1" (.ok sampleOkResponse) 9).1 =
      .ok { samplePending with status := .sent, sentAt := some 4 } :=
  c2_owner_scoping [samplePending] "a1" "bob" samplePending (.ok sampleOkResponse) 9
    (by simp) (by rfl) (by decide) (by rfl) (by rfl)

/-- Sample DTO whose custom content lacks the click-link placeholder. -/
def sampleNoPlaceholderDto : CreatePhishingAttemptDto :=
  { recipientEmail := "target@example.com"
    emailContent := some "<p>click here</p>"
    subject := some "hello" }

/-- C3: counterexample.  `createAttempt` with custom content lacking the
click-link placeholder does not fail with a ValidationError — it persists a
new PENDING record with that content unchanged, even though
`TemplateService.validateTemplate` (which no code path invokes) reports the
same content invalid. -/
theorem c3_create_without_placeholder_counterexample :
    (PhishingService.createAttempt sampleNoPlaceholderDto "alice" "a9" 4 []).2 =
      [{ id := "a9"
         recipientEmail := "target@example.com"
         emailContent := "<p>click here</p>"
         subject := "hello"
         createdBy := "alice"
         status := .pending
         createdAt := 4
         sentAt := none
         clickedAt := none }] ∧
    (TemplateService.validateTemplate "<p>click here</p>").valid = false := by
  constructor
  · rfl
  · decide

/-- C3 (amended): `createAttempt` performs no placeholder validation: every
call with non-empty custom content — placeholder or not — succeeds and
persists a new record with that exact content and status PENDING;
`TemplateService.validateTemplate` would report content lacking the
placeholder invalid, but nothing invokes it. -/
theorem c3_no_placeholder_validation (dto : CreatePhishingAttemptDto)
    (c userId newId : String) (now : Nat) (store : Store)
    (hc : dto.emailContent = some c) (hne : c ≠ "")
    (hnoph : ¬ (PhishingService.clickLinkPlaceholder.toList <:+: c.toList)) :
    (PhishingService.createAttempt dto userId newId now store).1.emailContent = c ∧
    (PhishingService.createAttempt dto userId newId now store).1.status = .pending ∧
    (PhishingService.createAttempt dto userId newId now store).2 =
      store ++ [(PhishingService.createAttempt dto userId newId now store).1] ∧
    (TemplateService.validateTemplate c).valid = false := by
  refine ⟨?_, rfl, rfl, ?_⟩
  · simp [PhishingService.createAttempt, hc, jsOrOpt, jsOr, hne]
  · have hnoph' : ¬ (PhishingService.clickLinkPlaceholder.data <:+: c.data) := by
      simpa [String.toList] using hnoph
    simp [TemplateService.validateTemplate, String.toList, hnoph']

/-- C3 witness: the amended theorem applied to the sample DTO whose content
lacks the placeholder. -/
theorem c3_no_placeholder_validation_witness :
    (PhishingService.createAttempt sampleNoPlaceholderDto "alice" "a9" 4 []).1.emailContent =
      "<p>click here</p>" ∧
    (PhishingService.createAttempt sampleNoPlaceholderDto "alice" "a9" 4 []).1.status = .pending ∧
    (PhishingService.createAttempt sampleNoPlaceholderDto "alice" "a9" 4 []).2 =
      [] ++ [(PhishingService.createAttempt sampleNoPlaceholderDto "alice" "a9" 4 []).1] ∧
    (TemplateService.validateTemplate "<p>click here</p>").valid = false :=
  c3_no_placeholder_validation sampleNoPlaceholderDto "<p>click here</p>" "alice" "a9" 4 []
    (by rfl) (by decide) (by decide)

/-- C4: a second `sendPhishingEmail` on a campaign whose send has already
completed fails with the invalid-state `BadRequestException` and returns
with the store — hence the campaign's status, `sentAt` and every other
field — exactly as the first call left them: the status check rejects any
non-PENDING record before any mutation or dispatch. -/
theorem c4_send_at_most_once (store : Store) (attemptId : String)
    (o1 o2 : ChannelOutcome) (n1 n2 : Nat) (a : PhishingAttempt)
    (hfind : findById store attemptId = some a)
    (hpend : a.status = .pending) :
    PhishingService.sendPhishingEmail
        (PhishingService.sendPhishingEmail store attemptId o1 n1).2 attemptId o2 n2 =
      (.error (.badRequest "Phishing attempt has already been processed"),
       (PhishingService.sendPhishingEmail store attemptId o1 n1).2) := by
  by_cases hs : (TcpClientService.sendPhishingEmail o1).success = true
  · have h1 : (PhishingService.sendPhishingEmail store attemptId o1 n1).2 =
        saveDoc store { a with
          status := .sent
          sentAt := some ((TcpClientService.sendPhishingEmail o1).sentAt.getD n1) } := by
      simp [PhishingService.sendPhishingEmail, hfind, hpend, hs]
    have hf2 := findById_saveDoc store attemptId a
      { a with
        status := .sent
        sentAt := some ((TcpClientService.sendPhishingEmail o1).sentAt.getD n1) }
      hfind rfl
    rw [h1]
    simp [PhishingService.sendPhishingEmail, hf2]
  · have hs' : (TcpClientService.sendPhishingEmail o1).success = false := by
      simpa using hs
    have h1 : (PhishingService.sendPhishingEmail store attemptId o1 n1).2 =
        saveDoc store { a with status := .failed } := by
      simp [PhishingService.sendPhishingEmail, hfind, hpend, hs']
    have hf2 := findById_saveDoc store attemptId a
      { a with status := .failed } hfind rfl
    rw [h1]
    simp [PhishingService.sendPhishingEmail, hf2]

/-- C4 witness: second send on the sample campaign after a successful first
send. -/
theorem c4_send_at_most_once_witness :
    PhishingService.sendPhishingEmail
        (PhishingService.sendPhishingEmail [samplePending] "a1" (.ok sampleOkResponse) 9).2
        "a1" (.ok sampleOkResponse) 11 =
      (.error (.badRequest "Phishing attempt has already been processed"),
       (PhishingService.sendPhishingEmail [samplePending] "a1" (.ok sampleOkResponse) 9).2) :=
  c4_send_at_most_once [samplePending] "a1" (.ok sampleOkResponse) (.ok sampleOkResponse)
    9 11 samplePending (by rfl) (by rfl)

/-- C5: `markAsClicked` is idempotent.  Whenever a first call succeeds —
whether it stamped `clickedAt` or found the record already CLICKED — a
second call returns the very same record and leaves the store exactly as
the first call left it: no double-stamping of `clickedAt`, no other field
mutated. -/
theorem c5_click_idempotent (store : Store) (attemptId : String) (n1 n2 : Nat)
    (a1 : PhishingAttempt) (s1 : Store)
    (h1 : PhishingService.markAsClicked store attemptId n1 = (.ok a1, s1)) :
    PhishingService.markAsClicked s1 attemptId n2 = (.ok a1, s1) := by
  cases hf : findById store attemptId with
  | none =>
      rw [PhishingService.markAsClicked] at h1
      rw [hf] at h1
      simp at h1
  | some attempt =>
      by_cases hcl : attempt.status = .clicked
      · have h1' : Except.ok (ε := ServiceError) attempt = .ok a1 ∧ store = s1 := by
          have := h1
          rw [PhishingService.markAsClicked] at this
          rw [hf] at this
          simp only [if_pos hcl, Prod.mk.injEq] at this
          exact this
        obtain ⟨ha, hssub⟩ := h1'
        have ha' : attempt = a1 := by
          simpa using ha
        subst hssub
        rw [← ha']
        simp [PhishingService.markAsClicked, hf, hcl]
      · have h1' : Except.ok (ε := ServiceError)
            { attempt with status := .clicked, clickedAt := some n1 } = .ok a1 ∧
            saveDoc store { attempt with status := .clicked, clickedAt := some n1 } = s1 := by
          have := h1
          rw [PhishingService.markAsClicked] at this
          rw [hf] at this
          simp only [if_neg hcl, Prod.mk.injEq] at this
          exact this
        obtain ⟨ha, hssub⟩ := h1'
        have ha' : { attempt with status := .clicked, clickedAt := some n1 } = a1 := by
          simpa using ha
        have hf2 : findById s1 attemptId =
            some { attempt with status := .clicked, clickedAt := some n1 } := by
          rw [← hssub]
          exact findById_saveDoc store attemptId attempt _ hf rfl
        rw [← ha']
        simp [PhishingService.markAsClicked, hf2]

/-- C5 witness: two clicks on the sample campaign. -/
theorem c5_click_idempotent_witness :
    PhishingService.markAsClicked
        (PhishingService.markAsClicked [samplePending] "a1" 7).2 "a1" 8 =
      (.ok { samplePending with status := .clicked, clickedAt := some 7 },
       [{ samplePending with status := .clicked, clickedAt := some 7 }]) :=
  c5_click_idempotent [samplePending] "a1" 7 8
    { samplePending with status := .clicked, clickedAt := some 7 }
    [{ samplePending with status := .clicked, clickedAt := some 7 }] (by rfl)

/-- C6: whenever the dispatch of a PENDING campaign does not succeed — the
channel returned a structured failure, or the channel call itself failed
(timeout, connection refused; the TCP client converts every such error into
a structured failure, last conjunct) — the campaign is persisted with status
FAILED, never left PENDING, and the failure reason is surfaced to the caller
inside the thrown `BadRequestException`. -/
theorem c6_failure_marks_failed (store : Store) (attemptId : String)
    (outcome : ChannelOutcome) (now : Nat) (a : PhishingAttempt)
    (hfind : findById store attemptId = some a)
    (hpend : a.status = .pending)
    (hfail : (TcpClientService.sendPhishingEmail outcome).success = false) :
    PhishingService.sendPhishingEmail store attemptId outcome now =
      (.error (.badRequest ("Failed to send phishing email: " ++
          jsOr (TcpClientService.sendPhishingEmail outcome).message "Unknown error")),
       saveDoc store { a with status := .failed }) ∧
    findById (PhishingService.sendPhishingEmail store attemptId outcome now).2 attemptId =
      some { a with status := .failed } ∧
    (∀ m, (TcpClientService.sendPhishingEmail (.err m)).success = false) := by
  have h1 : PhishingService.sendPhishingEmail store attemptId outcome now =
      (.error (.badRequest ("Failed to send phishing email: " ++
          jsOr (TcpClientService.sendPhishingEmail outcome).message "Unknown error")),
       saveDoc store { a with status := .failed }) := by
    simp [PhishingService.sendPhishingEmail, hfind, hpend, hfail]
  refine ⟨h1, ?_, fun m => rfl⟩
  rw [h1]
  exact findById_saveDoc store attemptId a { a with status := .failed } hfind rfl

/-- C6 witness: a channel-level connection failure on the sample campaign. -/
theorem c6_failure_marks_failed_witness :
    PhishingService.sendPhishingEmail [samplePending] "a1" (.err "ECONNREFUSED") 9 =
      (.error (.badRequest ("Failed to send phishing email: " ++
          jsOr (TcpClientService.sendPhishingEmail (.err "ECONNREFUSED")).message
            "Unknown error")),
       saveDoc [samplePending] { samplePending with status := .failed }) ∧
    findById (PhishingService.sendPhishingEmail [samplePending] "a1"
        (.err "ECONNREFUSED") 9).2 "a1" =
      some { samplePending with status := .failed } ∧
    (∀ m, (TcpClientService.sendPhishingEmail (.err m)).success = false) :=
  c6_failure_marks_failed [samplePending] "a1" (.err "ECONNREFUSED") 9 samplePending
    (by rfl) (by rfl) (by rfl)

/-- Sample structured success response carrying no `sentAt` timestamp. -/
def sampleOkResponseNoTimestamp : SendEmailResponse :=
  { success := true
    message := "Phishing email sent successfully"
    sentAt := none
    error := none }

/-- C7: counterexample.  `sendPhishingEmail` is not a compare-and-swap: it
reads the document, checks the snapshot's status, and later writes back
keyed only on id, unconditionally.  Under the interleaving read₁, read₂,
write₁, write₂ of two concurrent calls on the same PENDING campaign, both
calls observe PENDING and both complete successfully (`doneOk`), neither
failing with the invalid-state error — the claim's at-most-one guarantee
fails on this concrete execution. -/
theorem c7_both_sends_succeed_counterexample :
    runSchedule ⟨"a1", .ok sampleOkResponse, 10⟩
        ⟨"a1", .ok sampleOkResponseNoTimestamp, 20⟩
        [true, false, true, false]
        { store := [samplePending], p1 := .start, p2 := .start } =
      { store := [{ samplePending with status := .sent, sentAt := some 20 }]
        p1 := .doneOk { samplePending with status := .sent, sentAt := some 4 }
        p2 := .doneOk { samplePending with status := .sent, sentAt := some 20 } } := by
  rfl

/-- C7 (amended): the status transition of `sendPhishingEmail` is a separate
read followed by an unconditional save keyed only on id — not a conditional
update keyed on the current status — so two concurrent calls on the same
PENDING campaign, interleaved read₁, read₂, write₁, write₂, both observe
PENDING and both complete successfully (last write wins); neither fails
with InvalidState. -/
theorem c7_send_check_then_act_race (store : Store) (attemptId : String)
    (a : PhishingAttempt) (o1 o2 : ChannelOutcome) (n1 n2 : Nat)
    (hfind : findById store attemptId = some a)
    (hpend : a.status = .pending)
    (hs1 : (TcpClientService.sendPhishingEmail o1).success = true)
    (hs2 : (TcpClientService.sendPhishingEmail o2).success = true) :
    (runSchedule ⟨attemptId, o1, n1⟩ ⟨attemptId, o2, n2⟩ [true, false, true, false]
        { store := store, p1 := .start, p2 := .start }).p1 =
      .doneOk { a with
        status := .sent
        sentAt := some ((TcpClientService.sendPhishingEmail o1).sentAt.getD n1) } ∧
    (runSchedule ⟨attemptId, o1, n1⟩ ⟨attemptId, o2, n2⟩ [true, false, true, false]
        { store := store, p1 := .start, p2 := .start }).p2 =
      .doneOk { a with
        status := .sent
        sentAt := some ((TcpClientService.sendPhishingEmail o2).sentAt.getD n2) } := by
  simp [runSchedule, twoSendStep, sendStep, hfind, hpend, hs1, hs2]

/-- C7 witness: the amended theorem at the concrete one-campaign store. -/
theorem c7_send_check_then_act_race_witness :
    (runSchedule ⟨"a1", .ok sampleOkResponse, 10⟩
        ⟨"a1", .ok sampleOkResponseNoTimestamp, 20⟩ [true, false, true, false]
        { store := [samplePending], p1 := .start, p2 := .start }).p1 =
      .doneOk { samplePending with
        status := .sent
        sentAt := some ((TcpClientService.sendPhishingEmail
          (.ok sampleOkResponse)).sentAt.getD 10) } ∧
    (runSchedule ⟨"a1", .ok sampleOkResponse, 10⟩
        ⟨"a1", .ok sampleOkResponseNoTimestamp, 20⟩ [true, false, true, false]
        { store := [samplePending], p1 := .start, p2 := .start }).p2 =
      .doneOk { samplePending with
        status := .sent
        sentAt := some ((TcpClientService.sendPhishingEmail
          (.ok sampleOkResponseNoTimestamp)).sentAt.getD 20) } :=
  c7_send_check_then_act_race [samplePending] "a1" samplePending
    (.ok sampleOkResponse) (.ok sampleOkResponseNoTimestamp) 10 20
    (by rfl) (by rfl) (by rfl) (by rfl)

/-- C8: the dispatcher's handler is total over the channel boundary — it is
a function returning a structured `SendEmailResponse` on every input: on
transport success the result is `success := true` with a `sentAt`
timestamp; on transport failure it carries an error object with the
transport's code (default `SMTP_ERROR`) and message; on any unexpected
internal error it carries code `INTERNAL_ERROR`; and every unsuccessful
result carries an error object. -/
theorem c8_handler_total_structured (cfg : EmailService.EmailConfig)
    (dto : SendPhishingEmailDto) (nowStr : String) (now : Nat) :
    (∀ mid, EmailController.handleSendPhishingEmail cfg dto nowStr
        (.normal (.delivered mid)) now =
      { success := true
        message := "Phishing email sent successfully"
        sentAt := some now
        error := none }) ∧
    (∀ code msg, EmailController.handleSendPhishingEmail cfg dto nowStr
        (.normal (.transportError code msg)) now =
      { success := false
        message := "Failed to send phishing email"
        sentAt := none
        error := some { code := jsOrOpt code "SMTP_ERROR", message := msg } }) ∧
    (∀ msg, EmailController.handleSendPhishingEmail cfg dto nowStr
        (.internalError msg) now =
      { success := false
        message := "Unexpected error occurred while processing email request"
        sentAt := none
        error := some { code := "INTERNAL_ERROR", message := jsOr msg "Unknown error" } }) ∧
    (∀ h, (EmailController.handleSendPhishingEmail cfg dto nowStr h now).success = false →
      (EmailController.handleSendPhishingEmail cfg dto nowStr h now).error.isSome = true) := by
  refine ⟨fun mid => rfl, fun code msg => rfl, fun msg => rfl, ?_⟩
  intro h hfalse
  cases h with
  | normal outcome =>
      cases outcome with
      | delivered mid =>
          simp [EmailController.handleSendPhishingEmail,
            EmailService.sendPhishingEmail] at hfalse
      | transportError code msg => rfl
  | internalError m => rfl

/-- C9: the html handed to the mail transport is the request's
`emailContent` with every occurrence of the click-link placeholder replaced
by the tracking URL `baseTrackingUrl/attemptId` and every occurrence of the
timestamp placeholder replaced by the current time string; the text body is
derived from that html by stripping markup and collapsing whitespace; and
(last two conjuncts) the substitution and derivation behave as described on
a concrete template fragment. -/
theorem c9_placeholder_substitution (cfg : EmailService.EmailConfig)
    (dto : SendPhishingEmailDto) (nowStr : String)
    (outcome : EmailService.TransportOutcome) (now : Nat) :
    ((EmailService.sendPhishingEmail cfg dto nowStr outcome now).1.html =
      EmailService.replaceAllS
        (EmailService.replaceAllS dto.emailContent PhishingService.clickLinkPlaceholder
          (cfg.clickTrackingBaseUrl ++ "/" ++ dto.attemptId))
        EmailService.timestampPlaceholder nowStr) ∧
    ((EmailService.sendPhishingEmail cfg dto nowStr outcome now).1.text =
      EmailService.htmlToText
        ((EmailService.sendPhishingEmail cfg dto nowStr outcome now).1.html)) ∧
    ((EmailService.sendPhishingEmail cfg dto nowStr outcome now).1.toAddr =
      dto.recipientEmail) ∧
    ((EmailService.sendPhishingEmail cfg dto nowStr outcome now).1.subject =
      dto.subject) ∧
    EmailService.processEmailContent
        ("<a href=\"" ++ PhishingService.clickLinkPlaceholder ++ "\">Verify</a>")
        "http://mgmt/phishing/click/a1" "T" =
      "<a href=\"http://mgmt/phishing/click/a1\">Verify</a>" ∧
    EmailService.htmlToText "<a href=\"http://u/a1\">Verify</a>  your   account " =
      "Verify your account" := by
  cases outcome with
  | delivered mid => exact ⟨rfl, rfl, rfl, rfl, by decide, by decide⟩
  | transportError code msg => exact ⟨rfl, rfl, rfl, rfl, by decide, by decide⟩

/-- C10: `getAllAttempts` returns exactly the campaigns whose owner equals
the argument — every returned record's `createdBy` is the caller, the
result is a permutation of the owner-filtered store — ordered newest first
by `createdAt`. -/
theorem c10_list_own_campaigns (store : Store) (userId : String) :
    (PhishingService.getAllAttempts store userId).all
      (fun r => r.createdBy == userId) = true ∧
    (PhishingService.getAllAttempts store userId).Perm
      (store.filter (fun a => a.createdBy == userId)) ∧
    List.Sorted PhishingService.byCreatedDesc
      (PhishingService.getAllAttempts store userId) := by
  unfold PhishingService.getAllAttempts
  have hperm := List.perm_insertionSort PhishingService.byCreatedDesc
    (store.filter (fun a => a.createdBy == userId))
  refine ⟨?_, hperm, List.sorted_insertionSort PhishingService.byCreatedDesc _⟩
  rw [List.all_eq_true]
  intro r hr
  have hr' : r ∈ store.filter (fun a => a.createdBy == userId) :=
    hperm.mem_iff.mp hr
  exact (List.mem_filter.mp hr').2
